import Mathlib

/-
Verification of the blilys command-line client (src/main.rs, src/config.rs,
src/options.rs): a shallow embedding of the configuration store, the bridge
resolution and pairing flow, the command dispatcher and the Halloween effect,
together with theorems checking the natural-language specification.

External collaborators (the hueclient bridge library, the toml parser, the
random number generator, the file system) are modelled as parameters or as
input streams; the code under src/ is embedded faithfully.
-/

namespace Blilys

/-- IP addresses are opaque values to the program (only equality and copying
are used); they are modelled as natural numbers. -/
abbrev IpAddr := Nat

/-- The error kinds of the program, as described by the error-handling design:
discovery failure, pairing (registration) failure, a malformed persisted
configuration file, a failed read or write of the configuration file, and any
failed bridge list/get/set call. -/
inductive Error where
  | discoveryError
  | pairingError
  | configParseError
  | configIoError
  | bridgeCommandError
deriving DecidableEq

namespace hueclient

/-- Model of `hueclient::UnauthBridge`: an unauthenticated bridge handle
knowing only the network address. -/
structure UnauthBridge where
  ip : IpAddr
deriving DecidableEq

/-- Model of `hueclient::Bridge`: an authenticated bridge handle carrying the
address and the credential (username). -/
structure Bridge where
  ip : IpAddr
  username : String
deriving DecidableEq

/-- Model of `hueclient::LightState` (the fields read by main.rs); the source
field `on` is renamed `isOn` because `on` is reserved in Lean. -/
structure LightState where
  isOn : Bool
  bri : Option Nat
  hue : Option Nat
deriving DecidableEq

/-- Model of `hueclient::Light` (the fields read by main.rs). -/
structure Light where
  name : String
  state : LightState
deriving DecidableEq

/-- Model of `hueclient::IdentifiedLight`. -/
structure IdentifiedLight where
  id : Nat
  light : Light
deriving DecidableEq

/-- Model of `hueclient::Group` (the fields read by main.rs): the group name
and the member light ids, which the bridge reports as strings. -/
structure Group where
  name : String
  lights : List String
deriving DecidableEq

/-- Model of `hueclient::IdentifiedGroup`. -/
structure IdentifiedGroup where
  id : Nat
  group : Group
deriving DecidableEq

end hueclient

/-- Model of `hueclient::CommandLight` (the fields used by main.rs: `on`,
renamed `isOn` because `on` is reserved in Lean, and `bri`);
`CommandLight::default()` leaves every field unset. -/
structure CommandLight where
  isOn : Option Bool
  bri : Option Nat
deriving DecidableEq

/-- `CommandLight::default()`. -/
def CommandLight.empty : CommandLight := { isOn := none, bri := none }

/-- The `.on()` builder: sets the `on` field to true. -/
def CommandLight.onCmd (c : CommandLight) : CommandLight := { c with isOn := some true }

/-- The `.off()` builder: sets the `on` field to false. -/
def CommandLight.offCmd (c : CommandLight) : CommandLight := { c with isOn := some false }

/-- The `.with_bri(b)` builder: sets the `bri` field. -/
def CommandLight.with_bri (c : CommandLight) (b : Nat) : CommandLight := { c with bri := some b }

namespace config

/-- Model of `config::Bridge` (src/config.rs): the two persisted fields, an
optional bridge address and an optional credential string. -/
structure Bridge where
  ip : Option IpAddr
  username : Option String
deriving DecidableEq

/-- Model of `config::Config` (src/config.rs): the resolved config-file path
(not serialized) and the persisted bridge fields. -/
structure Config where
  path : Option String
  bridge : Bridge
deriving DecidableEq

/-- The `Default` impl for `Config` (src/config.rs): every field empty. -/
def defaultConfig : Config := { path := none, bridge := { ip := none, username := none } }

/-- Model of `Config::read_file` (src/config.rs lines 50-57): if a file exists
at the path (`file = some rd`), `fs::read(path)?` either fails — an IO error
such as a permission failure, propagated as the `ConfigIoError`
(`rd = .error ()`) — or yields the raw content `s`, which is then decoded and
parsed (`String::from_utf8` and `toml::from_str`, together the parameter
`parse`); a failure there is the `ConfigParseError`. If no file exists, the
default (all-empty) configuration is used. In either successful case the
`path` field is then set to the given path. The raw file content and the
external decoder/parser are parameters (`σ`, `parse`); `Config::from_file` is
`read_file` applied to the resolved config-file path. -/
def read_file {σ : Type} (parse : σ → Except Unit Config)
    (file : Option (Except Unit σ)) (path : String) : Except Error Config :=
  match file with
  | some (.error _) => .error Error.configIoError
  | some (.ok s) =>
    match parse s with
    | .error _ => .error Error.configParseError
    | .ok c => .ok { c with path := some path }
  | none => .ok { defaultConfig with path := some path }

/-- Model of `Config::save` (src/config.rs lines 59-67): `expect`s the path
(result `none` models the panic when the path is absent), then serializes the
configuration and overwrites the file. The written file is modelled by the two
serialized bridge fields (the `path` field is skipped by serialization). -/
def Config.save (c : Config) : Option Bridge :=
  c.path.map (fun _ => c.bridge)

end config

/-- Model of Rust `str::parse::<usize>` (`usize::from_str`): an optional
leading plus sign followed by one or more ASCII digits, rejecting the empty
string, any other character, and overflow past the 64-bit range. -/
def parse_usize (s : String) : Option Nat :=
  let ds := match s.data with
    | '+' :: rest => rest
    | cs => cs
  if ds = [] then none
  else if ds.all (fun c => c.isDigit) then
    let v := ds.foldl (fun a c => a * 10 + (c.toNat - Char.toNat '0')) 0
    if v < 2 ^ 64 then some v else none
  else none

/-- The sort key used by the group listing: the parsed numeric value of a
member light id (`l.parse::<usize>().expect(...)`); the default value 0 is
never used on inputs that parse. -/
def lightKey (l : String) : Nat := (parse_usize l).getD 0

/-- Insertion of an element into a sorted list (helper for the stable sort
model). -/
def ordered_insert {α : Type} (le : α → α → Bool) (a : α) : List α → List α
  | [] => [a]
  | b :: l => if le a b then a :: b :: l else b :: ordered_insert le a l

/-- Stable insertion sort (helper for the stable sort model): the result of
any stable sort is uniquely determined, so this models Rust's stable
`slice::sort_by_key`. -/
def insertion_sort {α : Type} (le : α → α → Bool) : List α → List α
  | [] => []
  | a :: l => ordered_insert le a (insertion_sort le l)

/-- Model of `lights.sort_by_key(|l| l.parse::<usize>().expect(...))`
(src/main.rs line 92): Rust's stable sort returns early for slices of fewer
than two elements without ever invoking the key extraction, so such lists
never panic; for two or more elements every element takes part in at least
one comparison, so the key extraction runs on each of them and the `expect`
panics (`none`) when some member id does not parse as an unsigned integer;
otherwise the member ids are stably sorted by their numeric values. -/
def sort_lights (lights : List String) : Option (List String) :=
  if lights.length < 2 then some lights
  else if lights.all (fun l => (parse_usize l).isSome) then
    some (insertion_sort (fun a b => Nat.ble (lightKey a) (lightKey b)) lights)
  else none

/-- Right-aligned space padding to a minimum width, as Rust formats numeric
values under a width specifier. -/
def padNum (width : Nat) (s : String) : String :=
  if s.length < width then String.mk (List.replicate (width - s.length) ' ') ++ s else s

/-- Left-aligned space padding to a minimum width, as Rust formats strings
under a width specifier. -/
def padStr (width : Nat) (s : String) : String :=
  if s.length < width then s ++ String.mk (List.replicate (width - s.length) ' ') else s

/-- One line of the group listing (src/main.rs lines 93-99): the group id
(width 2), the name (width 30) and the sorted member ids joined by a comma and
a space inside brackets; `none` models the panic of the sort key extraction. -/
def group_line (ig : hueclient.IdentifiedGroup) : Option String :=
  (sort_lights ig.group.lights).map (fun ls =>
    padNum 2 (toString ig.id) ++ ": " ++ padStr 30 ig.group.name ++
      " [" ++ String.intercalate ", " ls ++ "]")

/-- The whole group listing (src/main.rs lines 90-100): one line per group, in
bridge order; `none` models the panic raised at the first group whose member
ids do not all parse. -/
def groups_output : List hueclient.IdentifiedGroup → Option (List String)
  | [] => some []
  | g :: gs =>
    match group_line g with
    | none => none
    | some first =>
      match groups_output gs with
      | none => none
      | some rest => some (first :: rest)

/-- One line of the light listing (src/main.rs lines 124-133). -/
def lights_line (il : hueclient.IdentifiedLight) : String :=
  padNum 2 (toString il.id) ++ ": " ++ padStr 30 il.light.name ++
    " [" ++ padStr 3 (if il.light.state.isOn then "on" else "off") ++
    "] [bri " ++ padNum 3 (toString (il.light.state.bri.getD 0)) ++
    "] [hue " ++ padNum 5 (toString (il.light.state.hue.getD 0)) ++ "]"

/-- The `LightOperation` subcommand of main.rs: turn on (with an optional
brightness), turn off, or the Halloween mode. -/
inductive LightOperation where
  | on (bri : Option Nat)
  | off
  | halloween
deriving DecidableEq

/-- The `Command` subcommands of main.rs. -/
inductive Command where
  | pair
  | config
  | groups
  | group (group : Nat) (op : LightOperation)
  | lights
  | light (light : Nat) (op : LightOperation)
deriving DecidableEq

/-- The parsed command line (`Opt` in main.rs): the optional global `--bridge`
address and the subcommand. -/
structure Opt where
  bridge : Option IpAddr
  cmd : Command
deriving DecidableEq

/-- The network calls an invocation makes: bridge discovery, user
registration (the pairing request), and the list/get/set bridge commands. -/
inductive Event where
  | discover
  | register (ip : IpAddr)
  | getAllGroups
  | getAllLights
  | setGroupState (group : Nat) (cmd : CommandLight)
  | setLightState (light : Nat) (cmd : CommandLight)
deriving DecidableEq

/-- What an invocation prints on standard output: the configuration dump of
`Config::print` (its path and serialized fields), or a listing line. -/
inductive Printed where
  | configDump (path : Option String) (bridge : config.Bridge)
  | line (s : String)
deriving DecidableEq

/-- The ways a modelled computation can finish: normally, with a propagated
error, by a panic, or still running when the step budget of the model runs out
(only the Halloween loop can be in that state). -/
inductive Res (α : Type) where
  | ok (a : α)
  | err (e : Error)
  | panicked
  | diverged
deriving DecidableEq

/-- The environment of one invocation: the outcomes of the external calls.
Registration is a function of the contacted address; the set-state outcomes
are streams indexed by the number of set calls already made, so every possible
sequence of bridge-call outcomes is covered. `rngBri` and `rngSleep` are the
raw draws of the random number generator, and `fuel` bounds how many Halloween
iterations the model unrolls (the program itself has no such bound). -/
structure Env where
  discoverResult : Option IpAddr
  registerResult : IpAddr → Except Unit hueclient.Bridge
  groupsResult : Except Unit (List hueclient.IdentifiedGroup)
  lightsResult : Except Unit (List hueclient.IdentifiedLight)
  setGroupResult : Nat → Except Unit Unit
  setLightResult : Nat → Except Unit Unit
  rngBri : Nat → Nat
  rngSleep : Nat → Nat
  fuel : Nat

/-- Model of `rand_bri` (src/main.rs lines 183-187):
`Uniform::from(low..high).sample(rng)`. The uniform integer sampler is
modelled by `low + r % (high - low)` on the raw draw `r`; on raw draws ranging
over `0..(high - low)` this is a bijection onto the half-open interval
`[low, high)`, which is exactly the uniform distribution of the sampler. -/
def rand_bri (low high r : Nat) : Nat := low + r % (high - low)

/-- Model of `sleep_a_bit` (src/main.rs lines 189-193): sleeps a uniformly
random duration from `Uniform::from(200..1000)` milliseconds; the returned
value is the slept duration, sampled as in `rand_bri`. -/
def sleep_a_bit (r : Nat) : Nat := 200 + r % (1000 - 200)

/-- One observable step of the Halloween effect: the dim set-brightness
command (built from `rand_bri(1, 50)`), the bright set-brightness command
(built from `rand_bri(70, 120)`), or a pause of `sleep_a_bit`. -/
inductive HalloweenItem where
  | dim (cmd : CommandLight)
  | bright (cmd : CommandLight)
  | pause (ms : Nat)
deriving DecidableEq

/-- Model of the Halloween loop (src/main.rs lines 114-122 and 148-156; the
group and light loops are textually identical up to the set call): repeat
forever — build a command with brightness `rand_bri(1, 50)`, send it (`?`
propagates a failure), sleep, build a command with brightness
`rand_bri(70, 120)`, send it, sleep. `k` counts the iterations already done
(set calls are numbered `2 * k` and `2 * k + 1`), `fuel` bounds the unrolling:
the result is the emitted trace, paired with `some e` when a set call failed
and the loop stopped by propagating `e`, or `none` when the loop was still
running after `fuel` iterations. -/
def halloween_loop (rngBri rngSleep : Nat → Nat) (setResult : Nat → Except Unit Unit) :
    Nat → Nat → List HalloweenItem × Option Error
  | _, 0 => ([], none)
  | k, fuel + 1 =>
    let c1 := CommandLight.empty.with_bri (rand_bri 1 50 (rngBri (2 * k)))
    match setResult (2 * k) with
    | .error _ => ([.dim c1], some Error.bridgeCommandError)
    | .ok _ =>
      let s1 := sleep_a_bit (rngSleep (2 * k))
      let c2 := CommandLight.empty.with_bri (rand_bri 70 120 (rngBri (2 * k + 1)))
      match setResult (2 * k + 1) with
      | .error _ => ([.dim c1, .pause s1, .bright c2], some Error.bridgeCommandError)
      | .ok _ =>
        let r := halloween_loop rngBri rngSleep setResult (k + 1) fuel
        (.dim c1 :: .pause s1 :: .bright c2 :: .pause (sleep_a_bit (rngSleep (2 * k + 1))) :: r.1,
          r.2)

/-- The result of the pairing flow: its network calls, its prints, the file
writes it performed (each write is the serialized content), and the
authenticated bridge with the updated configuration on success. -/
structure PairOut where
  events : List Event
  printed : List Printed
  writes : List config.Bridge
  res : Res (hueclient.Bridge × config.Config)
deriving DecidableEq

/-- Model of `fn pair` (src/main.rs lines 163-181): prompt on standard error
and block on one line of standard input (both unmodelled: the input content is
ignored), then send the registration request. On failure the `PairingError`
propagates with the configuration and the file untouched. On success both
`config.bridge.ip` and `config.bridge.username` are overwritten with the
fields of the returned authenticated bridge, the configuration is saved once,
printed, and the bridge is returned. The hueclient library returns the
authenticated bridge for the contacted address, carrying that address and the
newly issued username; here the registration outcome is a parameter. -/
def pair (registerResult : IpAddr → Except Unit hueclient.Bridge)
    (unauth_bridge : hueclient.UnauthBridge) (cfg : config.Config) : PairOut :=
  match registerResult unauth_bridge.ip with
  | .error _ =>
    { events := [.register unauth_bridge.ip], printed := [], writes := [],
      res := .err Error.pairingError }
  | .ok bridge =>
    let cfg2 : config.Config :=
      { cfg with bridge := { ip := some bridge.ip, username := some bridge.username } }
    match cfg2.save with
    | none =>
      { events := [.register unauth_bridge.ip], printed := [], writes := [],
        res := .panicked }
    | some w =>
      { events := [.register unauth_bridge.ip],
        printed := [.configDump cfg2.path cfg2.bridge], writes := [w],
        res := .ok (bridge, cfg2) }

/-- Model of the `unauth_bridge` resolution (src/main.rs lines 64-70): an
address given with `--bridge` wins, else the address cached in the
configuration, else network discovery (`discover_required`, which fails the
run with a `DiscoveryError` when no bridge is found). `Bridge::for_ip` makes
no network call; discovery does, so it is recorded as an event. -/
def resolve_unauth_bridge (optBridge cfgIp discoverResult : Option IpAddr) :
    List Event × Except Error hueclient.UnauthBridge :=
  match optBridge with
  | some ip => ([], .ok { ip := ip })
  | none =>
    match cfgIp with
    | some ip => ([], .ok { ip := ip })
    | none =>
      match discoverResult with
      | some ip => ([Event.discover], .ok { ip := ip })
      | none => ([Event.discover], .error Error.discoveryError)

/-- The observable result of one invocation: network events in order, printed
output, file writes in order, and the exit state. -/
structure RunResult where
  events : List Event
  printed : List Printed
  writes : List config.Bridge
  exit : Res Unit
deriving DecidableEq

/-- The `Command::Group { group, op }` dispatch arm (src/main.rs lines
101-122): build the command from the flags and send it; the Halloween
operation enters the loop. -/
def group_op (env : Env) (g : Nat) : LightOperation → RunResult
  | .on bri =>
    let cmd := match bri with
      | some b => CommandLight.empty.onCmd.with_bri b
      | none => CommandLight.empty.onCmd
    match env.setGroupResult 0 with
    | .error _ =>
      { events := [.setGroupState g cmd], printed := [], writes := [],
        exit := .err Error.bridgeCommandError }
    | .ok _ =>
      { events := [.setGroupState g cmd], printed := [], writes := [], exit := .ok () }
  | .off =>
    let cmd := CommandLight.empty.offCmd
    match env.setGroupResult 0 with
    | .error _ =>
      { events := [.setGroupState g cmd], printed := [], writes := [],
        exit := .err Error.bridgeCommandError }
    | .ok _ =>
      { events := [.setGroupState g cmd], printed := [], writes := [], exit := .ok () }
  | .halloween =>
    let r := halloween_loop env.rngBri env.rngSleep env.setGroupResult 0 env.fuel
    { events := r.1.filterMap (fun it =>
        match it with
        | .dim c => some (Event.setGroupState g c)
        | .bright c => some (Event.setGroupState g c)
        | .pause _ => none),
      printed := [], writes := [],
      exit := match r.2 with | some e => .err e | none => .diverged }

/-- The `Command::Light { light, op }` dispatch arm (src/main.rs lines
136-156), identical to the group arm up to the set call. -/
def light_op (env : Env) (l : Nat) : LightOperation → RunResult
  | .on bri =>
    let cmd := match bri with
      | some b => CommandLight.empty.onCmd.with_bri b
      | none => CommandLight.empty.onCmd
    match env.setLightResult 0 with
    | .error _ =>
      { events := [.setLightState l cmd], printed := [], writes := [],
        exit := .err Error.bridgeCommandError }
    | .ok _ =>
      { events := [.setLightState l cmd], printed := [], writes := [], exit := .ok () }
  | .off =>
    let cmd := CommandLight.empty.offCmd
    match env.setLightResult 0 with
    | .error _ =>
      { events := [.setLightState l cmd], printed := [], writes := [],
        exit := .err Error.bridgeCommandError }
    | .ok _ =>
      { events := [.setLightState l cmd], printed := [], writes := [], exit := .ok () }
  | .halloween =>
    let r := halloween_loop env.rngBri env.rngSleep env.setLightResult 0 env.fuel
    { events := r.1.filterMap (fun it =>
        match it with
        | .dim c => some (Event.setLightState l c)
        | .bright c => some (Event.setLightState l c)
        | .pause _ => none),
      printed := [], writes := [],
      exit := match r.2 with | some e => .err e | none => .diverged }

/-- The `match opt.cmd` dispatch of main.rs (lines 82-157), run after the
authenticated bridge was obtained: `Pair` does nothing further, `Config`
prints the configuration (no bridge call), `Groups` and `Lights` query and
print the listings (the group listing panics when a member id does not
parse), and `Group`/`Light` send the built command or run the loop. -/
def dispatch (env : Env) (cfg : config.Config) : Command → RunResult
  | .pair => { events := [], printed := [], writes := [], exit := .ok () }
  | .config =>
    { events := [], printed := [.configDump cfg.path cfg.bridge], writes := [],
      exit := .ok () }
  | .groups =>
    match env.groupsResult with
    | .error _ =>
      { events := [.getAllGroups], printed := [], writes := [],
        exit := .err Error.bridgeCommandError }
    | .ok gs =>
      match groups_output gs with
      | none =>
        { events := [.getAllGroups], printed := [], writes := [], exit := .panicked }
      | some lines =>
        { events := [.getAllGroups], printed := lines.map .line, writes := [],
          exit := .ok () }
  | .group g op => group_op env g op
  | .lights =>
    match env.lightsResult with
    | .error _ =>
      { events := [.getAllLights], printed := [], writes := [],
        exit := .err Error.bridgeCommandError }
    | .ok ls =>
      { events := [.getAllLights], printed := ls.map (fun il => .line (lights_line il)),
        writes := [], exit := .ok () }
  | .light l op => light_op env l op

/-- The state of the persisted configuration file, abstracted to the outcome
of reading and parsing it: `none` — no file; `some (.error ())` — a file
whose read fails with an IO error; `some (.ok (.error ()))` — a readable
file that does not parse; `some (.ok (.ok b))` — a readable file whose two
fields parse to `b`. -/
abbrev Fs := Option (Except Unit (Except Unit config.Bridge))

/-- `Config::from_file` as used by main (src/config.rs lines 35-37 with
lines 50-57): `read_file` at the resolved path, on the file state. -/
def loadConfig (fs : Fs) (path : String) : Except Error config.Config :=
  config.read_file (fun pr => pr.map (fun b => { config.defaultConfig with bridge := b }))
    fs path

/-- Model of `fn main` (src/main.rs lines 60-161): load the configuration,
resolve the unauthenticated bridge (flag, then cached address, then
discovery), obtain the authenticated bridge — for `pair` always by pairing,
otherwise by attaching the cached credential when present and by pairing when
absent — and dispatch the requested command. Any propagated error aborts. -/
def run (env : Env) (fs : Fs) (path : String) (opt : Opt) : RunResult :=
  match loadConfig fs path with
  | .error e => { events := [], printed := [], writes := [], exit := .err e }
  | .ok cfg =>
    let r1 := resolve_unauth_bridge opt.bridge cfg.bridge.ip env.discoverResult
    match r1.2 with
    | .error e => { events := r1.1, printed := [], writes := [], exit := .err e }
    | .ok unauth_bridge =>
      let step2 : PairOut :=
        match opt.cmd with
        | .pair => pair env.registerResult unauth_bridge cfg
        | _ =>
          match cfg.bridge.username with
          | some username =>
            { events := [], printed := [], writes := [],
              res := .ok ({ ip := unauth_bridge.ip, username := username }, cfg) }
          | none => pair env.registerResult unauth_bridge cfg
      match step2.res with
      | .err e =>
        { events := r1.1 ++ step2.events, printed := step2.printed,
          writes := step2.writes, exit := .err e }
      | .panicked =>
        { events := r1.1 ++ step2.events, printed := step2.printed,
          writes := step2.writes, exit := .panicked }
      | .diverged =>
        { events := r1.1 ++ step2.events, printed := step2.printed,
          writes := step2.writes, exit := .diverged }
      | .ok (_, cfg2) =>
        let d := dispatch env cfg2 opt.cmd
        { events := r1.1 ++ step2.events ++ d.events,
          printed := step2.printed ++ d.printed,
          writes := step2.writes ++ d.writes,
          exit := d.exit }

/-- A fixed example environment for concrete evaluations: discovery finds the
bridge at address 9, registration succeeds at any address with the username
"fresh", every bridge command succeeds, the listings are empty, the raw random
draws are the call indices, and no Halloween iteration is unrolled. -/
def envEx : Env :=
  { discoverResult := some 9
    registerResult := fun ip => Except.ok { ip := ip, username := "fresh" }
    groupsResult := Except.ok []
    lightsResult := Except.ok []
    setGroupResult := fun _ => Except.ok ()
    setLightResult := fun _ => Except.ok ()
    rngBri := id
    rngSleep := id
    fuel := 0 }

/- ------------------------------------------------------------------ -/
/- Helper lemmas                                                       -/
/- ------------------------------------------------------------------ -/

theorem rand_bri_bounds (low high r : Nat) (h : low < high) :
    low ≤ rand_bri low high r ∧ rand_bri low high r < high := by
  unfold rand_bri
  have h2 : r % (high - low) < high - low := Nat.mod_lt _ (by omega)
  omega

theorem sleep_a_bit_bounds (r : Nat) : 200 ≤ sleep_a_bit r ∧ sleep_a_bit r < 1000 := by
  unfold sleep_a_bit
  have h2 : r % (1000 - 200) < 1000 - 200 := Nat.mod_lt _ (by omega)
  omega

theorem rand_bri_range (low high v : Nat) (h : low < high) :
    (low ≤ v ∧ v < high) ↔ ∃ r, r < high - low ∧ rand_bri low high r = v := by
  constructor
  · intro hv
    refine ⟨v - low, by omega, ?_⟩
    unfold rand_bri
    rw [Nat.mod_eq_of_lt (by omega)]
    omega
  · rintro ⟨r, hr, hrv⟩
    have hb := rand_bri_bounds low high r h
    omega

theorem halloween_trace_bounds (rngBri rngSleep : Nat → Nat)
    (setResult : Nat → Except Unit Unit) :
    ∀ fuel k it, it ∈ (halloween_loop rngBri rngSleep setResult k fuel).1 →
      match it with
      | .dim c => ∃ b, c.bri = some b ∧ 1 ≤ b ∧ b < 50
      | .bright c => ∃ b, c.bri = some b ∧ 70 ≤ b ∧ b < 120
      | .pause ms => 200 ≤ ms ∧ ms < 1000 := by
  intro fuel
  induction fuel with
  | zero =>
    intro k it h
    simp [halloween_loop] at h
  | succ n ih =>
    intro k it h
    simp only [halloween_loop] at h
    cases hs : setResult (2 * k) with
    | error u =>
      rw [hs] at h
      simp at h
      subst h
      exact ⟨rand_bri 1 50 (rngBri (2 * k)), rfl, rand_bri_bounds 1 50 _ (by omega)⟩
    | ok u =>
      rw [hs] at h
      cases hs2 : setResult (2 * k + 1) with
      | error u2 =>
        rw [hs2] at h
        simp at h
        rcases h with h | h | h
        · subst h
          exact ⟨rand_bri 1 50 (rngBri (2 * k)), rfl, rand_bri_bounds 1 50 _ (by omega)⟩
        · subst h
          exact sleep_a_bit_bounds (rngSleep (2 * k))
        · subst h
          exact ⟨rand_bri 70 120 (rngBri (2 * k + 1)), rfl,
            rand_bri_bounds 70 120 _ (by omega)⟩
      | ok u2 =>
        rw [hs2] at h
        simp at h
        rcases h with h | h | h | h | h
        · subst h
          exact ⟨rand_bri 1 50 (rngBri (2 * k)), rfl, rand_bri_bounds 1 50 _ (by omega)⟩
        · subst h
          exact sleep_a_bit_bounds (rngSleep (2 * k))
        · subst h
          exact ⟨rand_bri 70 120 (rngBri (2 * k + 1)), rfl,
            rand_bri_bounds 70 120 _ (by omega)⟩
        · subst h
          exact sleep_a_bit_bounds (rngSleep (2 * k + 1))
        · exact ih (k + 1) it h

/- ------------------------------------------------------------------ -/
/- C4: the Halloween effect and termination                            -/
/- ------------------------------------------------------------------ -/

/-- C4 (counterexample): the Halloween effect does not keep running for every
sequence of bridge-call outcomes — when the very first set-brightness call
fails, the loop stops after that one call (the `?` operator propagates a
`BridgeCommandError`), without any external process termination. -/
theorem halloween_stops_on_bridge_error :
    (halloween_loop id id (fun _ => Except.error ()) 0 5).2 = some Error.bridgeCommandError ∧
      (halloween_loop id id (fun _ => Except.error ()) 0 5).1.length = 1 := by
  decide

/-- C4 (amended): once started, the Halloween effect runs forever on the
calling thread for every sequence of SUCCESSFUL bridge-call outcomes — after
any number of unrolled iterations it has neither returned nor stopped, and it
has emitted an unbounded alternation of set-brightness and pause steps (four
per iteration); but a failing set-brightness call terminates it by propagating
the error. -/
theorem halloween_runs_forever_on_success (rngBri rngSleep : Nat → Nat)
    (setResult : Nat → Except Unit Unit) (h : ∀ n, setResult n = Except.ok ())
    (k fuel : Nat) :
    (halloween_loop rngBri rngSleep setResult k fuel).2 = none ∧
      (halloween_loop rngBri rngSleep setResult k fuel).1.length = 4 * fuel := by
  induction fuel generalizing k with
  | zero => simp [halloween_loop]
  | succ n ih =>
    have ih2 := ih (k + 1)
    simp only [halloween_loop, h]
    constructor
    · exact ih2.1
    · simp only [List.length_cons, ih2.2]
      omega

/-- C4 (witness): the amended theorem at a concrete all-success environment. -/
theorem halloween_runs_forever_on_success_witness :
    (halloween_loop id id (fun _ => Except.ok ()) 0 3).2 = none ∧
      (halloween_loop id id (fun _ => Except.ok ()) 0 3).1.length = 4 * 3 :=
  halloween_runs_forever_on_success id id (fun _ => Except.ok ()) (fun _ => rfl) 0 3

/- ------------------------------------------------------------------ -/
/- C8: the Halloween brightness and pause ranges                       -/
/- ------------------------------------------------------------------ -/

/-- C8: in every Halloween iteration — for every random stream, every
sequence of bridge outcomes and every number of iterations — each dim-phase
command carries a brightness in [1, 50), each bright-phase command a
brightness in [70, 120), and each pause a duration in [200, 1000)
milliseconds; and each draw is uniform: the sampler restricted to the raw
draws below the interval width maps onto exactly the claimed half-open
interval. The bounds 1, 50, 70, 120, 200, 1000 are fixed constants of
`rand_bri` and `sleep_a_bit` as called by the loop. -/
theorem halloween_brightness_and_pause_bounds (rngBri rngSleep : Nat → Nat)
    (setResult : Nat → Except Unit Unit) (k fuel : Nat) :
    (∀ c, HalloweenItem.dim c ∈ (halloween_loop rngBri rngSleep setResult k fuel).1 →
      ∃ b, c.bri = some b ∧ 1 ≤ b ∧ b < 50) ∧
    (∀ c, HalloweenItem.bright c ∈ (halloween_loop rngBri rngSleep setResult k fuel).1 →
      ∃ b, c.bri = some b ∧ 70 ≤ b ∧ b < 120) ∧
    (∀ ms, HalloweenItem.pause ms ∈ (halloween_loop rngBri rngSleep setResult k fuel).1 →
      200 ≤ ms ∧ ms < 1000) ∧
    (∀ v, (1 ≤ v ∧ v < 50) ↔ ∃ r, r < 50 - 1 ∧ rand_bri 1 50 r = v) ∧
    (∀ v, (70 ≤ v ∧ v < 120) ↔ ∃ r, r < 120 - 70 ∧ rand_bri 70 120 r = v) ∧
    (∀ v, (200 ≤ v ∧ v < 1000) ↔ ∃ r, r < 1000 - 200 ∧ sleep_a_bit r = v) := by
  refine ⟨?_, ?_, ?_, ?_, ?_, ?_⟩
  · intro c h
    exact halloween_trace_bounds rngBri rngSleep setResult fuel k (.dim c) h
  · intro c h
    exact halloween_trace_bounds rngBri rngSleep setResult fuel k (.bright c) h
  · intro ms h
    exact halloween_trace_bounds rngBri rngSleep setResult fuel k (.pause ms) h
  · intro v
    exact rand_bri_range 1 50 v (by omega)
  · intro v
    exact rand_bri_range 70 120 v (by omega)
  · intro v
    exact rand_bri_range 200 1000 v (by omega)

/-- C8 (witness): the bounds evaluated at a concrete dim item of a concrete
one-iteration trace, and the uniform-range equivalence at the value 5. -/
theorem halloween_brightness_and_pause_bounds_witness :
    (∃ b, (CommandLight.empty.with_bri (rand_bri 1 50 0)).bri = some b ∧ 1 ≤ b ∧ b < 50) ∧
      ((1 ≤ 5 ∧ 5 < 50) ↔ ∃ r, r < 50 - 1 ∧ rand_bri 1 50 r = 5) :=
  ⟨(halloween_brightness_and_pause_bounds id id (fun _ => Except.ok ()) 0 1).1
      (CommandLight.empty.with_bri (rand_bri 1 50 0)) (by decide),
    (halloween_brightness_and_pause_bounds id id (fun _ => Except.ok ()) 0 1).2.2.2.1 5⟩

/- ------------------------------------------------------------------ -/
/- Sorting helper lemmas                                               -/
/- ------------------------------------------------------------------ -/

theorem ordered_insert_perm {α : Type} (le : α → α → Bool) (a : α) (l : List α) :
    (ordered_insert le a l).Perm (a :: l) := by
  induction l with
  | nil => simp [ordered_insert]
  | cons b l ih =>
    simp only [ordered_insert]
    split
    · exact List.Perm.refl _
    · exact (List.Perm.cons b ih).trans (List.Perm.swap a b l)

theorem insertion_sort_perm {α : Type} (le : α → α → Bool) (l : List α) :
    (insertion_sort le l).Perm l := by
  induction l with
  | nil => simp [insertion_sort]
  | cons a l ih =>
    exact (ordered_insert_perm le a (insertion_sort le l)).trans (List.Perm.cons a ih)

theorem ordered_insert_pairwise {α : Type} (le : α → α → Bool)
    (htrans : ∀ x y z, le x y = true → le y z = true → le x z = true)
    (htotal : ∀ x y, le x y = true ∨ le y x = true)
    (a : α) (l : List α) (hl : l.Pairwise (fun x y => le x y = true)) :
    (ordered_insert le a l).Pairwise (fun x y => le x y = true) := by
  induction l with
  | nil => simp [ordered_insert]
  | cons b l ih =>
    rw [List.pairwise_cons] at hl
    simp only [ordered_insert]
    split
    · rename_i hab
      rw [List.pairwise_cons]
      refine ⟨?_, List.pairwise_cons.mpr hl⟩
      intro y hy
      rcases List.mem_cons.mp hy with rfl | hyl
      · exact hab
      · exact htrans a b y hab (hl.1 y hyl)
    · rename_i hab
      have hba : le b a = true := (htotal a b).resolve_left hab
      rw [List.pairwise_cons]
      refine ⟨?_, ih hl.2⟩
      intro y hy
      have hmem : y = a ∨ y ∈ l := by
        simpa using (ordered_insert_perm le a l).mem_iff.mp hy
      rcases hmem with rfl | hyl
      · exact hba
      · exact hl.1 y hyl

theorem insertion_sort_pairwise {α : Type} (le : α → α → Bool)
    (htrans : ∀ x y z, le x y = true → le y z = true → le x z = true)
    (htotal : ∀ x y, le x y = true ∨ le y x = true) (l : List α) :
    (insertion_sort le l).Pairwise (fun x y => le x y = true) := by
  induction l with
  | nil => simp [insertion_sort]
  | cons a l ih => exact ordered_insert_pairwise le htrans htotal a _ ih

theorem insertion_sort_short {α : Type} (le : α → α → Bool) (l : List α)
    (h : l.length < 2) : insertion_sort le l = l := by
  cases l with
  | nil => rfl
  | cons a t =>
    cases t with
    | nil => rfl
    | cons b t2 =>
      simp at h
      omega

theorem sort_lights_isSome (lights : List String) :
    (sort_lights lights).isSome = true ↔
      (lights.length < 2 ∨ ∀ l ∈ lights, (parse_usize l).isSome = true) := by
  unfold sort_lights
  split
  · rename_i h
    simp [h]
  · rename_i h
    split
    · rename_i h2
      simp only [Option.isSome_some, true_iff]
      exact Or.inr (List.all_eq_true.mp h2)
    · rename_i h2
      simp only [Option.isSome_none, Bool.false_eq_true, false_iff, not_or]
      exact ⟨h, fun hall => h2 (List.all_eq_true.mpr hall)⟩

theorem group_line_isSome (g : hueclient.IdentifiedGroup) :
    (group_line g).isSome = true ↔
      (g.group.lights.length < 2 ∨
        ∀ l ∈ g.group.lights, (parse_usize l).isSome = true) := by
  rw [group_line, Option.isSome_map', sort_lights_isSome]

/- ------------------------------------------------------------------ -/
/- C7: the group listing sorts member ids numerically                  -/
/- ------------------------------------------------------------------ -/

/-- C7: for every group all of whose member ids parse as unsigned integers,
the listing line renders the member ids as a permutation of the group's
members that is sorted by the numeric value of the ids (not by the lexical
order of the strings), joined by a comma and a space. -/
theorem group_line_sorted_numerically (gid : Nat) (gname : String) (lights : List String)
    (h : ∀ l ∈ lights, (parse_usize l).isSome = true) :
    ∃ ls, sort_lights lights = some ls ∧ ls.Perm lights ∧
      ls.Pairwise (fun a b => lightKey a ≤ lightKey b) ∧
      group_line { id := gid, group := { name := gname, lights := lights } } =
        some (padNum 2 (toString gid) ++ ": " ++ padStr 30 gname ++
          " [" ++ String.intercalate ", " ls ++ "]") := by
  have hall : lights.all (fun l => (parse_usize l).isSome) = true :=
    List.all_eq_true.mpr h
  have hsort : sort_lights lights =
      some (insertion_sort (fun a b => Nat.ble (lightKey a) (lightKey b)) lights) := by
    unfold sort_lights
    by_cases hlen : lights.length < 2
    · rw [if_pos hlen, insertion_sort_short _ _ hlen]
    · rw [if_neg hlen, hall]
      simp
  refine ⟨insertion_sort (fun a b => Nat.ble (lightKey a) (lightKey b)) lights,
    hsort, insertion_sort_perm _ lights, ?_, ?_⟩
  · have hp := insertion_sort_pairwise (fun a b => Nat.ble (lightKey a) (lightKey b))
      (fun x y z hxy hyz => by
        simp only [Nat.ble_eq] at hxy hyz ⊢
        omega)
      (fun x y => by
        simp only [Nat.ble_eq]
        omega) lights
    exact hp.imp (fun hxy => by simpa only [Nat.ble_eq] using hxy)
  · rw [group_line]
    simp only []
    rw [hsort]
    rfl

/-- C7 (witness): the theorem at the spec's example — member ids "2", "10",
"1" — together with the concrete sorted rendering "1, 2, 10" (not the
lexicographic "1, 10, 2"). -/
theorem group_line_sorted_numerically_witness :
    (∃ ls, sort_lights ["2", "10", "1"] = some ls ∧ ls.Perm ["2", "10", "1"] ∧
      ls.Pairwise (fun a b => lightKey a ≤ lightKey b) ∧
      group_line { id := 1, group := { name := "Stua", lights := ["2", "10", "1"] } } =
        some (padNum 2 (toString 1) ++ ": " ++ padStr 30 "Stua" ++
          " [" ++ String.intercalate ", " ls ++ "]")) ∧
    sort_lights ["2", "10", "1"] = some ["1", "2", "10"] ∧
    group_line { id := 1, group := { name := "Stua", lights := ["2", "10", "1"] } } =
      some " 1: Stua                           [1, 2, 10]" :=
  ⟨group_line_sorted_numerically 1 "Stua" ["2", "10", "1"] (by decide),
    by decide, by decide⟩

/- ------------------------------------------------------------------ -/
/- C9: the group listing, numeric member ids and the panic             -/
/- ------------------------------------------------------------------ -/

/-- C9 (counterexample): a group whose single member id "x" is not a numeric
string does NOT make the listing panic — the stable sort returns early for
fewer than two elements without invoking the key extraction, so the listing
completes even though "x" does not parse as an unsigned integer. -/
theorem singleton_nonnumeric_group_does_not_panic :
    (groups_output [{ id := 1, group := { name := "a", lights := ["x"] } }]).isSome
        = true ∧
      parse_usize "x" = none := by
  decide

/-- C9 (amended): the group listing is total exactly when, in every returned
group with at least two member ids, every member id parses as an unsigned
integer: a group with two or more members one of which is not a numeric
string makes the sort key extraction panic (the `expect` call, modelled by
`none`) instead of returning an error, while a group with fewer than two
members never invokes the key extraction and never panics. -/
theorem groups_listing_total_iff_numeric_or_short
    (gs : List hueclient.IdentifiedGroup) :
    (groups_output gs).isSome = true ↔
      ∀ g ∈ gs, g.group.lights.length < 2 ∨
        ∀ l ∈ g.group.lights, (parse_usize l).isSome = true := by
  induction gs with
  | nil => simp [groups_output]
  | cons g gs ih =>
    rw [groups_output]
    cases hg : group_line g with
    | none =>
      simp only [Option.isSome_none, Bool.false_eq_true, false_iff]
      intro hall
      have h2 : (group_line g).isSome = true :=
        (group_line_isSome g).mpr (hall g (by simp))
      rw [hg] at h2
      simp at h2
    | some first =>
      cases hrest : groups_output gs with
      | none =>
        simp only [Option.isSome_none, Bool.false_eq_true, false_iff]
        intro hall
        have h2 : (groups_output gs).isSome = true :=
          ih.mpr (fun g2 hg2 => hall g2 (by simp [hg2]))
        rw [hrest] at h2
        simp at h2
      | some rest =>
        simp only [Option.isSome_some, true_iff]
        intro g2 hg2
        rcases List.mem_cons.mp hg2 with rfl | hg2
        · exact (group_line_isSome g2).mp (by rw [hg]; rfl)
        · have h2 : (groups_output gs).isSome = true := by rw [hrest]; rfl
          exact ih.mp h2 g2 hg2

/-- C9 (witness): a two-member group containing the non-numeric id "x"
panics, while a two-member numeric group completes. -/
theorem groups_listing_total_iff_numeric_or_short_witness :
    (groups_output [{ id := 1, group := { name := "a", lights := ["2", "x"] } }]).isSome
        = false ∧
      (groups_output
          [{ id := 1, group := { name := "a", lights := ["2", "10"] } }]).isSome
        = true := by
  constructor
  · have h := groups_listing_total_iff_numeric_or_short
      [{ id := 1, group := { name := "a", lights := ["2", "x"] } }]
    by_contra hc
    simp only [Bool.not_eq_false] at hc
    have h2 := h.mp hc { id := 1, group := { name := "a", lights := ["2", "x"] } }
      (by simp)
    rcases h2 with h2 | h2
    · simp at h2
    · have h3 := h2 "x" (by simp)
      simp [parse_usize] at h3
  · exact (groups_listing_total_iff_numeric_or_short
      [{ id := 1, group := { name := "a", lights := ["2", "10"] } }]).mpr (by decide)

/- ------------------------------------------------------------------ -/
/- C6: loading from a missing file, and the load error kinds           -/
/- ------------------------------------------------------------------ -/

/-- C6 (counterexample): a parse failure is NOT the only load error on an
existing file — when the file exists but `fs::read` fails (for example a
permission error), the load fails with the IO error, not with the
`ConfigParseError`. -/
theorem unreadable_file_fails_with_io_error :
    loadConfig (some (Except.error ())) "p" = .error Error.configIoError ∧
      Error.configIoError ≠ Error.configParseError :=
  ⟨rfl, by decide⟩

/-- C6 (amended): loading the configuration from a path at which no file
exists returns a configuration whose bridge address and credential are both
empty and never returns an error; a load of an existing file can fail in
exactly two ways — a failed read of the file surfaces as the IO error, and a
parse failure of the read content as the `ConfigParseError`; the parse
failure is the only load error on a file that was read successfully. -/
theorem load_missing_empty_and_load_error_kinds :
    (∀ (σ : Type) (parse : σ → Except Unit config.Config) (path : String),
      config.read_file parse none path =
        .ok { path := some path, bridge := { ip := none, username := none } }) ∧
    (∀ (σ : Type) (parse : σ → Except Unit config.Config)
        (file : Option (Except Unit σ)) (path : String) (e : Error),
      config.read_file parse file path = .error e →
        (e = Error.configIoError ∧ file = some (.error ())) ∨
        (e = Error.configParseError ∧
          ∃ s, file = some (.ok s) ∧ parse s = .error ())) := by
  constructor
  · intro σ parse path
    rfl
  · intro σ parse file path e h
    unfold config.read_file at h
    cases file with
    | none => simp at h
    | some rd =>
      cases rd with
      | error u =>
        cases u
        dsimp only at h
        simp only [Except.error.injEq] at h
        exact Or.inl ⟨h.symm, rfl⟩
      | ok s =>
        dsimp only at h
        cases hp : parse s with
        | error u =>
          cases u
          rw [hp] at h
          simp only [Except.error.injEq] at h
          exact Or.inr ⟨h.symm, s, rfl, hp⟩
        | ok c =>
          rw [hp] at h
          simp at h

/-- C6 (witness): the missing-file case, and the parse-failure case of the
error classification, at concrete inputs. -/
theorem load_missing_empty_and_load_error_kinds_witness :
    (config.read_file (fun _u : Unit => Except.error ()) none "p" =
        .ok { path := some "p", bridge := { ip := none, username := none } }) ∧
      ((Error.configParseError = Error.configIoError ∧
          (some (Except.ok ()) : Option (Except Unit Unit)) = some (.error ())) ∨
        (Error.configParseError = Error.configParseError ∧
          ∃ s, (some (Except.ok ()) : Option (Except Unit Unit)) = some (.ok s) ∧
            (fun _u : Unit => (Except.error () : Except Unit config.Config)) s =
              .error ())) :=
  ⟨load_missing_empty_and_load_error_kinds.1 Unit (fun _u => Except.error ()) "p",
    load_missing_empty_and_load_error_kinds.2 Unit (fun _u => Except.error ())
      (some (Except.ok ())) "p" Error.configParseError rfl⟩

/- ------------------------------------------------------------------ -/
/- C10: from_file always sets the path, so save never panics on it     -/
/- ------------------------------------------------------------------ -/

/-- C10: every configuration produced by a successful load carries the
resolved config-file path (the `path` field is `some` even when the file did
not exist); `save` panics exactly when the path is absent; hence for every
configuration obtained from a successful `from_file`, `save` reaches its
write (the panic branch is unreachable). -/
theorem from_file_sets_path_and_save_total :
    (∀ (σ : Type) (parse : σ → Except Unit config.Config)
        (file : Option (Except Unit σ)) (path : String) (c : config.Config),
      config.read_file parse file path = .ok c → c.path = some path) ∧
    (∀ c : config.Config, c.save = none ↔ c.path = none) ∧
    (∀ (σ : Type) (parse : σ → Except Unit config.Config)
        (file : Option (Except Unit σ)) (path : String) (c : config.Config),
      config.read_file parse file path = .ok c → ∃ w, c.save = some w) := by
  have hpath : ∀ (σ : Type) (parse : σ → Except Unit config.Config)
      (file : Option (Except Unit σ)) (path : String) (c : config.Config),
      config.read_file parse file path = .ok c → c.path = some path := by
    intro σ parse file path c h
    unfold config.read_file at h
    cases file with
    | none =>
      simp only [Except.ok.injEq] at h
      rw [← h]
    | some rd =>
      cases rd with
      | error u => simp at h
      | ok s =>
        dsimp only at h
        cases hp : parse s with
        | error u =>
          rw [hp] at h
          simp at h
        | ok c2 =>
          rw [hp] at h
          simp only [Except.ok.injEq] at h
          rw [← h]
  refine ⟨hpath, ?_, ?_⟩
  · intro c
    unfold config.Config.save
    cases c.path <;> simp
  · intro σ parse file path c h
    refine ⟨c.bridge, ?_⟩
    unfold config.Config.save
    rw [hpath σ parse file path c h]
    rfl

/-- C10 (witness): the theorem applied at a load from a missing file: the
path is set and save reaches its write. -/
theorem from_file_sets_path_and_save_total_witness :
    (({ path := some "p", bridge := { ip := none, username := none } } :
        config.Config).path = some "p") ∧
      ∃ w, ({ path := some "p", bridge := { ip := none, username := none } } :
        config.Config).save = some w :=
  ⟨from_file_sets_path_and_save_total.1 Unit (fun _u => Except.ok config.defaultConfig)
      none "p" { path := some "p", bridge := { ip := none, username := none } } rfl,
    from_file_sets_path_and_save_total.2.2 Unit (fun _u => Except.ok config.defaultConfig)
      none "p" { path := some "p", bridge := { ip := none, username := none } } rfl⟩

/- ------------------------------------------------------------------ -/
/- C2: pairing updates address and credential together, atomically     -/
/- ------------------------------------------------------------------ -/

/-- C2: a successful pairing run updates the configuration's bridge address
and credential together — both set to the fields of the bridge returned by
registration — and persists them in exactly one save; a failed registration
propagates the `PairingError` with no write at all, so the persisted file
keeps its previous contents; and no write performed by pairing ever lacks
the address or the credential. -/
theorem pair_updates_both_atomically
    (registerResult : IpAddr → Except Unit hueclient.Bridge)
    (ub : hueclient.UnauthBridge) (cfg : config.Config) :
    (∀ e, registerResult ub.ip = .error e →
      pair registerResult ub cfg =
        { events := [.register ub.ip], printed := [], writes := [],
          res := .err Error.pairingError }) ∧
    (∀ b, registerResult ub.ip = .ok b → ∀ p, cfg.path = some p →
      pair registerResult ub cfg =
        { events := [.register ub.ip],
          printed := [.configDump (some p)
            { ip := some b.ip, username := some b.username }],
          writes := [{ ip := some b.ip, username := some b.username }],
          res := .ok (b,
            { path := some p,
              bridge := { ip := some b.ip, username := some b.username } }) }) ∧
    (∀ w ∈ (pair registerResult ub cfg).writes, w.ip.isSome ∧ w.username.isSome) := by
  obtain ⟨cp, cb⟩ := cfg
  refine ⟨?_, ?_, ?_⟩
  · intro e he
    unfold pair
    rw [he]
  · intro b hb p hp
    simp only at hp
    subst hp
    unfold pair
    rw [hb]
    rfl
  · intro w hw
    unfold pair at hw
    cases hb : registerResult ub.ip with
    | error e =>
      rw [hb] at hw
      simp at hw
    | ok b =>
      rw [hb] at hw
      cases cp with
      | none => simp [config.Config.save] at hw
      | some p =>
        simp only [config.Config.save, Option.map_some', List.mem_singleton] at hw
        subst hw
        exact ⟨rfl, rfl⟩

/-- C2 (witness): the success case at a concrete registration outcome — one
write carrying both the address and the credential. -/
theorem pair_updates_both_atomically_witness :
    pair (fun ip => Except.ok { ip := ip, username := "user" }) { ip := 4 }
        { path := some "cfg", bridge := { ip := some 9, username := some "old" } } =
      { events := [.register 4],
        printed := [.configDump (some "cfg") { ip := some 4, username := some "user" }],
        writes := [{ ip := some 4, username := some "user" }],
        res := .ok ({ ip := 4, username := "user" },
          { path := some "cfg",
            bridge := { ip := some 4, username := some "user" } }) } :=
  (pair_updates_both_atomically (fun ip => Except.ok { ip := ip, username := "user" })
      { ip := 4 }
      { path := some "cfg", bridge := { ip := some 9, username := some "old" } }).2.1
    { ip := 4, username := "user" } rfl "cfg" rfl

/- ------------------------------------------------------------------ -/
/- Helper lemmas about the run                                         -/
/- ------------------------------------------------------------------ -/

theorem loadConfig_path (fs : Fs) (path : String) (cfg : config.Config)
    (h : loadConfig fs path = .ok cfg) : cfg.path = some path := by
  unfold loadConfig config.read_file at h
  cases fs with
  | none =>
    simp only [Except.ok.injEq] at h
    rw [← h]
  | some rd =>
    cases rd with
    | error u => simp at h
    | ok pr =>
      cases pr with
      | error u => simp [Except.map] at h
      | ok b =>
        simp only [Except.map, Except.ok.injEq] at h
        rw [← h]

theorem pair_events_eq (rr : IpAddr → Except Unit hueclient.Bridge)
    (ub : hueclient.UnauthBridge) (cfg : config.Config) :
    (pair rr ub cfg).events = [Event.register ub.ip] := by
  obtain ⟨cp, cb⟩ := cfg
  unfold pair
  cases rr ub.ip with
  | error e => rfl
  | ok b => cases cp <;> rfl

theorem dispatch_writes_eq (env : Env) (cfg : config.Config) (cmd : Command) :
    (dispatch env cfg cmd).writes = [] := by
  cases cmd with
  | pair => rfl
  | config => rfl
  | groups =>
    simp only [dispatch]
    cases env.groupsResult with
    | error e => rfl
    | ok gs =>
      dsimp only
      cases groups_output gs with
      | none => rfl
      | some lines => rfl
  | group g op =>
    simp only [dispatch]
    rcases op with bri | - | -
    · simp only [group_op]
      cases env.setGroupResult 0 <;> rfl
    · simp only [group_op]
      cases env.setGroupResult 0 <;> rfl
    · rfl
  | lights =>
    simp only [dispatch]
    cases env.lightsResult <;> rfl
  | light l op =>
    simp only [dispatch]
    rcases op with bri | - | -
    · simp only [light_op]
      cases env.setLightResult 0 <;> rfl
    · simp only [light_op]
      cases env.setLightResult 0 <;> rfl
    · rfl

theorem dispatch_events_no_discover (env : Env) (cfg : config.Config) (cmd : Command) :
    Event.discover ∉ (dispatch env cfg cmd).events := by
  cases cmd with
  | pair => simp [dispatch]
  | config => simp [dispatch]
  | groups =>
    simp only [dispatch]
    cases env.groupsResult with
    | error e => simp
    | ok gs =>
      dsimp only
      cases groups_output gs with
      | none => simp
      | some lines => simp
  | group g op =>
    simp only [dispatch]
    rcases op with bri | - | -
    · simp only [group_op]
      cases env.setGroupResult 0 <;> simp
    · simp only [group_op]
      cases env.setGroupResult 0 <;> simp
    · simp only [group_op, List.mem_filterMap, not_exists]
      rintro it ⟨hit, habs⟩
      cases it <;> simp at habs
  | lights =>
    simp only [dispatch]
    cases env.lightsResult <;> simp
  | light l op =>
    simp only [dispatch]
    rcases op with bri | - | -
    · simp only [light_op]
      cases env.setLightResult 0 <;> simp
    · simp only [light_op]
      cases env.setLightResult 0 <;> simp
    · simp only [light_op, List.mem_filterMap, not_exists]
      rintro it ⟨hit, habs⟩
      cases it <;> simp at habs

theorem run_discover_mem (env : Env) (fs : Fs) (path : String) (opt : Opt)
    (cfg : config.Config) (hload : loadConfig fs path = .ok cfg) :
    Event.discover ∈ (run env fs path opt).events ↔
      Event.discover ∈ (resolve_unauth_bridge opt.bridge cfg.bridge.ip env.discoverResult).1 := by
  obtain ⟨ob, cmd⟩ := opt
  unfold run
  rw [hload]
  dsimp only
  cases hub : (resolve_unauth_bridge ob cfg.bridge.ip env.discoverResult).2 with
  | error e => simp
  | ok ub =>
    have hev := pair_events_eq env.registerResult ub cfg
    cases cmd with
    | pair =>
      dsimp only
      rcases hP : pair env.registerResult ub cfg with ⟨ev2, pr2, ws2, res2⟩
      rw [hP] at hev
      dsimp only at hev ⊢
      cases res2 with
      | ok a =>
        obtain ⟨b2, cfg2⟩ := a
        simp [hev, dispatch_events_no_discover]
      | err e => simp [hev]
      | panicked => simp [hev]
      | diverged => simp [hev]
    | config =>
      dsimp only
      cases hcu : cfg.bridge.username with
      | some u => simp [dispatch_events_no_discover]
      | none =>
        rcases hP : pair env.registerResult ub cfg with ⟨ev2, pr2, ws2, res2⟩
        rw [hP] at hev
        dsimp only at hev ⊢
        cases res2 with
        | ok a =>
          obtain ⟨b2, cfg2⟩ := a
          simp [hev, dispatch_events_no_discover]
        | err e => simp [hev]
        | panicked => simp [hev]
        | diverged => simp [hev]
    | groups =>
      dsimp only
      cases hcu : cfg.bridge.username with
      | some u => simp [dispatch_events_no_discover]
      | none =>
        rcases hP : pair env.registerResult ub cfg with ⟨ev2, pr2, ws2, res2⟩
        rw [hP] at hev
        dsimp only at hev ⊢
        cases res2 with
        | ok a =>
          obtain ⟨b2, cfg2⟩ := a
          simp [hev, dispatch_events_no_discover]
        | err e => simp [hev]
        | panicked => simp [hev]
        | diverged => simp [hev]
    | lights =>
      dsimp only
      cases hcu : cfg.bridge.username with
      | some u => simp [dispatch_events_no_discover]
      | none =>
        rcases hP : pair env.registerResult ub cfg with ⟨ev2, pr2, ws2, res2⟩
        rw [hP] at hev
        dsimp only at hev ⊢
        cases res2 with
        | ok a =>
          obtain ⟨b2, cfg2⟩ := a
          simp [hev, dispatch_events_no_discover]
        | err e => simp [hev]
        | panicked => simp [hev]
        | diverged => simp [hev]
    | group g op =>
      dsimp only
      cases hcu : cfg.bridge.username with
      | some u => simp [dispatch_events_no_discover]
      | none =>
        rcases hP : pair env.registerResult ub cfg with ⟨ev2, pr2, ws2, res2⟩
        rw [hP] at hev
        dsimp only at hev ⊢
        cases res2 with
        | ok a =>
          obtain ⟨b2, cfg2⟩ := a
          simp [hev, dispatch_events_no_discover]
        | err e => simp [hev]
        | panicked => simp [hev]
        | diverged => simp [hev]
    | light l op =>
      dsimp only
      cases hcu : cfg.bridge.username with
      | some u => simp [dispatch_events_no_discover]
      | none =>
        rcases hP : pair env.registerResult ub cfg with ⟨ev2, pr2, ws2, res2⟩
        rw [hP] at hev
        dsimp only at hev ⊢
        cases res2 with
        | ok a =>
          obtain ⟨b2, cfg2⟩ := a
          simp [hev, dispatch_events_no_discover]
        | err e => simp [hev]
        | panicked => simp [hev]
        | diverged => simp [hev]

/- ------------------------------------------------------------------ -/
/- C3: bridge address resolution precedence                            -/
/- ------------------------------------------------------------------ -/

/-- C3: the bridge address is resolved by strict precedence — a `--bridge`
flag address is always used when present (no discovery); otherwise the cached
configuration address is used when present (no discovery); and in every
invocation that loads its configuration, discovery is performed exactly when
both are absent. -/
theorem bridge_resolution_precedence :
    (∀ ip cfgIp d, resolve_unauth_bridge (some ip) cfgIp d = ([], .ok { ip := ip })) ∧
    (∀ ip d, resolve_unauth_bridge none (some ip) d = ([], .ok { ip := ip })) ∧
    (∀ d, Event.discover ∈ (resolve_unauth_bridge none none d).1) ∧
    (∀ (env : Env) (fs : Fs) (path : String) (opt : Opt) (cfg : config.Config),
      loadConfig fs path = .ok cfg →
      (Event.discover ∈ (run env fs path opt).events ↔
        (opt.bridge = none ∧ cfg.bridge.ip = none))) := by
  refine ⟨?_, ?_, ?_, ?_⟩
  · intro ip cfgIp d
    rfl
  · intro ip d
    rfl
  · intro d
    cases d <;> simp [resolve_unauth_bridge]
  · intro env fs path opt cfg hload
    rw [run_discover_mem env fs path opt cfg hload]
    obtain ⟨ob, cmd⟩ := opt
    dsimp only
    cases ob with
    | some ip => simp [resolve_unauth_bridge]
    | none =>
      cases hci : cfg.bridge.ip with
      | some ip => simp [resolve_unauth_bridge]
      | none => cases env.discoverResult <;> simp [resolve_unauth_bridge]

/-- C3 (witness): the discovery equivalence applied at a concrete invocation
with no flag and no cached address. -/
theorem bridge_resolution_precedence_witness :
    Event.discover ∈
        (run envEx none "cfg" { bridge := none, cmd := Command.config }).events ↔
      ((none : Option IpAddr) = none ∧
        ({ path := some "cfg", bridge := { ip := none, username := none } } :
          config.Config).bridge.ip = none) :=
  bridge_resolution_precedence.2.2.2 envEx none "cfg"
    { bridge := none, cmd := Command.config }
    { path := some "cfg", bridge := { ip := none, username := none } } rfl

/- ------------------------------------------------------------------ -/
/- C5: the --bridge flag and the persisted file                        -/
/- ------------------------------------------------------------------ -/

/-- C5 (counterexample): the `--bridge` flag address is NOT always kept out of
the persisted file — invoking `pair` with `--bridge 7` registers with the
bridge at the flag address and writes that address (with the new credential)
to the configuration file, replacing the previously cached address 3. -/
theorem bridge_flag_persisted_by_pairing :
    (run envEx (some (Except.ok (Except.ok { ip := some 3, username := some "old" }))) "cfg"
        { bridge := some 7, cmd := Command.pair }).writes =
      [{ ip := some 7, username := some "fresh" }] := by
  decide

/-- C5 (amended): the `--bridge` flag address is never persisted as long as
pairing does not run (a credential is cached and the command is not `pair`):
such an invocation performs no file write at all. When pairing does run (the
`pair` command, or any command with no cached credential), the single write
carries the address of the authenticated bridge returned by registering at
the flag address — for the Hue library this is the flag address itself, so
the flag is persisted in exactly that case. -/
theorem bridge_flag_persistence (env : Env) (fs : Fs) (path : String) (ip : IpAddr)
    (cmd : Command) (cfg : config.Config) (hload : loadConfig fs path = .ok cfg) :
    (∀ u, cfg.bridge.username = some u → cmd ≠ Command.pair →
      (run env fs path { bridge := some ip, cmd := cmd }).writes = []) ∧
    (∀ b, env.registerResult ip = .ok b →
      (cmd = Command.pair ∨ cfg.bridge.username = none) →
      (run env fs path { bridge := some ip, cmd := cmd }).writes =
        [{ ip := some b.ip, username := some b.username }]) := by
  constructor
  · intro u hu hcmd
    cases cmd
    case pair => exact absurd rfl hcmd
    all_goals simp [run, hload, resolve_unauth_bridge, hu, dispatch_writes_eq]
  · intro b hb hdisj
    have hpath := loadConfig_path fs path cfg hload
    obtain ⟨cp, cb⟩ := cfg
    dsimp only at hpath
    subst hpath
    rcases hdisj with rfl | hu
    · simp [run, hload, resolve_unauth_bridge, pair, hb, config.Config.save,
        dispatch_writes_eq]
    · dsimp only at hu
      cases cmd
      all_goals simp [run, hload, resolve_unauth_bridge, pair, hb, hu,
        config.Config.save, dispatch_writes_eq]

/-- C5 (witness): a `groups` invocation with the flag and a cached credential
performs no file write. -/
theorem bridge_flag_persistence_witness :
    (run envEx (some (Except.ok (Except.ok { ip := some 3, username := some "old" }))) "cfg"
        { bridge := some 7, cmd := Command.groups }).writes = [] :=
  (bridge_flag_persistence envEx
      (some (Except.ok (Except.ok { ip := some 3, username := some "old" }))) "cfg" 7
      Command.groups
      { path := some "cfg", bridge := { ip := some 3, username := some "old" } }
      rfl).1 "old" rfl (by decide)

/- ------------------------------------------------------------------ -/
/- C1: the config command and pairing                                  -/
/- ------------------------------------------------------------------ -/

/-- C1 (counterexample): invoking `config` before any pairing has occurred
(no file, hence no cached credential) does NOT perform zero bridge calls:
the run discovers the bridge and then attempts pairing (a registration
call), because the credential-resolution step pairs for every command except
`pair` itself whenever no credential is cached — including `config`. -/
theorem config_before_pairing_makes_bridge_calls :
    (run envEx none "cfg" { bridge := none, cmd := Command.config }).events =
        [Event.discover, Event.register 9] ∧
      (run envEx none "cfg" { bridge := none, cmd := Command.config }).events ≠ [] := by
  decide

/-- C1 (amended): when a credential is cached and an address is available
(flag or cached), `config` prints the configuration (with its resolved file
path) and performs zero bridge calls; but when no credential is cached,
pairing — with its registration call — is attempted before every command
except `pair` itself, including `config`, as soon as an unauthenticated
bridge was resolved. -/
theorem config_cmd_bridge_calls (env : Env) (fs : Fs) (path : String)
    (ob : Option IpAddr) (cfg : config.Config)
    (hload : loadConfig fs path = .ok cfg) :
    cfg.path = some path ∧
    (∀ u, cfg.bridge.username = some u → (ob.isSome ∨ cfg.bridge.ip.isSome) →
      run env fs path { bridge := ob, cmd := Command.config } =
        { events := [], printed := [.configDump cfg.path cfg.bridge], writes := [],
          exit := .ok () }) ∧
    (cfg.bridge.username = none →
      ∀ ub, (resolve_unauth_bridge ob cfg.bridge.ip env.discoverResult).2 = .ok ub →
        Event.register ub.ip ∈
          (run env fs path { bridge := ob, cmd := Command.config }).events) := by
  refine ⟨loadConfig_path fs path cfg hload, ?_, ?_⟩
  · intro u hu hip
    rcases hip with h | h
    · obtain ⟨a, rfl⟩ := Option.isSome_iff_exists.mp h
      simp [run, hload, resolve_unauth_bridge, hu, dispatch]
    · obtain ⟨a, ha⟩ := Option.isSome_iff_exists.mp h
      cases ob with
      | some a2 => simp [run, hload, resolve_unauth_bridge, hu, dispatch]
      | none => simp [run, hload, resolve_unauth_bridge, ha, hu, dispatch]
  · intro hu ub hub
    unfold run
    rw [hload]
    dsimp only
    rw [hub]
    dsimp only
    rw [hu]
    dsimp only
    have hev := pair_events_eq env.registerResult ub cfg
    rcases hP : pair env.registerResult ub cfg with ⟨ev2, pr2, ws2, res2⟩
    rw [hP] at hev
    dsimp only at hev ⊢
    cases res2 with
    | ok a =>
      obtain ⟨b2, cfg2⟩ := a
      simp [hev]
    | err e => simp [hev]
    | panicked => simp [hev]
    | diverged => simp [hev]

/-- C1 (witness): the zero-bridge-calls case at a concrete cached
configuration. -/
theorem config_cmd_bridge_calls_witness :
    run envEx (some (Except.ok (Except.ok { ip := some 3, username := some "old" }))) "cfg"
        { bridge := none, cmd := Command.config } =
      { events := [],
        printed := [Printed.configDump (some "cfg")
          { ip := some 3, username := some "old" }],
        writes := [], exit := Res.ok () } :=
  (config_cmd_bridge_calls envEx
      (some (Except.ok (Except.ok { ip := some 3, username := some "old" }))) "cfg" none
      { path := some "cfg", bridge := { ip := some 3, username := some "old" } }
      rfl).2.1 "old" rfl (Or.inr rfl)

end Blilys
